import Mathlib

/-!
# Verification of the Rocket core router, dispatcher and responders

A shallow embedding of the routing, dispatch, catcher, managed-state and
range-response code of the repository, together with proofs about it.

The embedded functions follow `src/core/lib/src/router/mod.rs`,
`src/lib/src/rocket.rs`, `src/core/lib/src/rocket.rs`,
`src/lib/src/request/from_request.rs` and
`src/core/lib/src/response/responder.rs`.  Parts of the repository that are
referenced by those files but whose sources are not present (the route
collider `router/collider.rs` and `router/route.rs`, the form-item and
method parsers of the `http` module, the `catcher` module and the type-map
`state` container) are modelled from the specification, as marked on each
such definition.
-/

namespace Rocket

/-- The HTTP methods recognized by the program (the IETF standard set,
per the spec's wire surface section). -/
inductive Method where
  | get | put | post | delete | options | head | trace | connect | patch
deriving DecidableEq, Repr

/-- A path segment of a route URI pattern: static text, a single dynamic
segment `<name>`, or a trailing multi-dynamic segment `<name..>`. -/
inductive Seg where
  | stat (s : String)
  | single (name : String)
  | multi (name : String)
deriving DecidableEq, Repr

/-- A query segment of a route URI pattern. -/
inductive QSeg where
  | qstat (key value : String)
  | qsingle (name : String)
  | qmulti (name : String)
deriving DecidableEq, Repr

/-- A media type used as a route format predicate; `tp`/`sub` may be the
wildcard string. -/
structure MediaType where
  tp : String
  sub : String
deriving DecidableEq, Repr

/-- A route descriptor: method, rank, normalized path pattern, query
pattern, optional format predicate and a handler identifier
(`router/route.rs`; the handler function is represented by its identity,
as the spec's route-descriptor model prescribes). -/
structure Route where
  method : Method
  rank : Int
  path : List Seg
  query : List QSeg
  format : Option MediaType
  handler : Nat
deriving DecidableEq, Repr

/-- Modelled from the spec: the default rank is chosen by specificity.
A pattern with only static segments is preferred (lower rank) over one
with single-dynamic segments, which is preferred over one with a
multi-dynamic segment; a pattern with an explicit format predicate is
preferred over one without. -/
def defaultRank (path : List Seg) (format : Option MediaType) : Int :=
  let base : Int :=
    if path.any (fun s => match s with | .multi _ => true | _ => false) then 2
    else if path.any (fun s => match s with | .single _ => true | _ => false) then 1
    else 0
  2 * base + (if format.isSome then 0 else 1)

/-- `Route::new(method, path, handler)`: a route with the default rank.
The collision check in `router/mod.rs` builds `Route::new(Method::Get, "/", dummy)`
placeholders with it; the path `"/"` normalizes to the empty segment list. -/
def Route.new (method : Method) (path : List Seg) (handler : Nat) : Route :=
  { method := method, rank := defaultRank path none, path := path,
    query := [], format := none, handler := handler }

/-- The placeholder route `Route::new(Method::Get, "/", dummy)` that
`Router::collisions` swaps in for each member of a reported pair. -/
def dummyRoute : Route := Route.new .get [] 0

/-- Modelled from the spec (segment collision): two same-position path
segments collide if both are static and equal, or either is
single-dynamic; a multi-dynamic segment absorbs the whole remaining tail.
Following the router's own tests (`test_no_collisions`:
`/a/d/<b..>` does not collide with `/a/d`), a trailing multi-dynamic
segment does not collide with an empty tail. -/
def segsCollide : List Seg → List Seg → Bool
  | [], [] => true
  | [], _ :: _ => false
  | _ :: _, [] => false
  | a :: as, b :: bs =>
    match a, b with
    | .multi _, _ => true
    | _, .multi _ => true
    | .single _, _ => segsCollide as bs
    | _, .single _ => segsCollide as bs
    | .stat s, .stat t => s == t && segsCollide as bs

/-- Modelled from the spec and the router's own tests
(`test_collisions_query`, `test_collision_when_ranked_query`: mismatched
query parts, e.g. `/a?a=b` vs `/a?c=d`, still collide): the query parts
never prevent a collision. -/
def queriesCollide (_a _b : List QSeg) : Bool := true

/-- Modelled from the spec (format collision): the predicates collide iff
they are both absent, equal, or one is a super-type of the other. -/
def formatsCollide : Option MediaType → Option MediaType → Bool
  | none, none => true
  | some a, some b =>
      (a.tp == b.tp || a.tp == "*" || b.tp == "*")
        && (a.sub == b.sub || a.sub == "*" || b.sub == "*")
  | _, _ => false

/-- Modelled from the spec: `Route::collides_with` holds iff the two
routes have the same method, the same rank (the router's ranked-collision
tests, e.g. `test_no_manual_ranked_collisions`, show rank equality is part
of this check), colliding paths, queries and formats. -/
def Route.collides_with (a b : Route) : Bool :=
  a.method == b.method && a.rank == b.rank
    && segsCollide a.path b.path
    && queriesCollide a.query b.query
    && formatsCollide a.format b.format

/-! ## The router (`src/core/lib/src/router/mod.rs`) -/

/-- The router: buckets of routes keyed by method.  The source uses a
`HashMap<Method, Vec<Route>>`; the map is embedded as an association list
whose key order is the key insertion order. -/
structure Router where
  routes : List (Method × List Route)
deriving DecidableEq, Repr

/-- `Router::new()`. -/
def Router.new : Router := ⟨[]⟩

/-- The bucket for a method (`or_insert_with(|| vec![])` semantics:
a missing bucket reads as empty). -/
def Router.bucket (r : Router) (m : Method) : List Route :=
  match r.routes.find? (fun p => p.1 == m) with
  | some p => p.2
  | none => []

/-- Replace the bucket of `m` (inserting a fresh key at the end if the
method had no bucket yet, as the hash map's `entry` API does). -/
def Router.setBucket (r : Router) (m : Method) (v : List Route) : Router :=
  if r.routes.any (fun p => p.1 == m) then
    ⟨r.routes.map (fun p => if p.1 == m then (p.1, v) else p)⟩
  else
    ⟨r.routes ++ [(m, v)]⟩

/-- The core loop of Rust's `slice::binary_search_by` over the ranks of a
bucket: returns the matching index on `Equal` (Rust's `Ok(mid)`) and the
insertion point on exhaustion (Rust's `Err(left)`); `Router::add` uses
either one unchanged as the insertion index (`unwrap_or_else(|i| i)`).
The loop is embedded with an explicit iteration budget (the first `Nat`
argument); each iteration shrinks `right - left`, so a budget of
`right - left` always suffices and the `0` case is unreachable from
`addIdx`, which supplies `entries.length`. -/
def binarySearchLoop (ranks : List Int) (key : Int) : Nat → Nat → Nat → Nat
  | 0, left, _right => left
  | fuel + 1, left, right =>
    if left < right then
      if ranks.getD (left + (right - left) / 2) 0 < key then
        binarySearchLoop ranks key fuel (left + (right - left) / 2 + 1) right
      else if key < ranks.getD (left + (right - left) / 2) 0 then
        binarySearchLoop ranks key fuel left (left + (right - left) / 2)
      else left + (right - left) / 2
    else left

/-- The index at which `Router::add` inserts a route of rank `key` into
`entries`. -/
def addIdx (entries : List Route) (key : Int) : Nat :=
  binarySearchLoop (entries.map (fun r => r.rank)) key entries.length 0 entries.length

/-- `Vec::insert(i, a)`. -/
def insertAt (l : List α) (i : Nat) (a : α) : List α :=
  l.take i ++ a :: l.drop i

/-- `Router::add` (`router/mod.rs` lines 26-33): binary-search the bucket
of the route's method by rank and insert at the returned position. -/
def Router.add (r : Router) (route : Route) : Router :=
  let entries := r.bucket route.method
  let i := addIdx entries route.rank
  r.setBucket route.method (insertAt entries i route)

/-- A request as the router sees it: method, normalized path segments,
query items and the content type. -/
structure RRequest where
  method : Method
  segments : List String
  query : List (String × String)
  contentType : Option MediaType
deriving DecidableEq, Repr

/-- Modelled from the spec: a route path pattern matches a request path
when static segments are equal, a single-dynamic segment matches exactly
one request segment, and a trailing multi-dynamic segment matches the
whole remaining (possibly empty) tail. -/
def segsMatch : List Seg → List String → Bool
  | [], [] => true
  | .multi _ :: _, _ => true
  | .stat s :: ps, x :: xs => s == x && segsMatch ps xs
  | .single _ :: ps, _ :: xs => segsMatch ps xs
  | _, _ => false

/-- Modelled from the spec: a route's format predicate is satisfied when
it is absent or matched by the request's content type. -/
def formatSatisfied (format : Option MediaType) (ct : Option MediaType) : Bool :=
  match format, ct with
  | none, _ => true
  | some f, some c =>
      (f.tp == c.tp || f.tp == "*") && (f.sub == c.sub || f.sub == "*")
  | some _, none => false

/-- Modelled from the spec: `Route::matches_by_method` holds when the
route's method equals the request's method and the URI pattern and format
predicate match the request. -/
def Route.matches_by_method (route : Route) (req : RRequest) : Bool :=
  route.method == req.method
    && segsMatch route.path req.segments
    && formatSatisfied route.format req.contentType

/-- Modelled from the spec and the comment on `Router::route`
(`router/mod.rs` lines 35-41): `Route::match_any` matches the request
regardless of the route's method. -/
def Route.match_any (route : Route) (req : RRequest) : Bool :=
  segsMatch route.path req.segments
    && formatSatisfied route.format req.contentType

/-- The per-bucket body of `Router::route`'s loop: push routes that match
by method, and, when `restrict` is false, also routes that match any
method. -/
def routeBucketScan (req : RRequest) (restrict : Bool)
    (acc : List Route) (bucket : List Route) : List Route :=
  bucket.foldl (fun acc2 rt =>
    if rt.matches_by_method req then acc2 ++ [rt]
    else if !restrict && rt.match_any req then acc2 ++ [rt]
    else acc2) acc

/-- `Router::route` (`router/mod.rs` lines 42-57): walk every bucket and
collect the matches in iteration order. -/
def Router.route (r : Router) (req : RRequest) (restrict : Bool) : List Route :=
  r.routes.foldl (fun acc mb => routeBucketScan req restrict acc mb.2) []

/-! ## `Router::collisions` (`router/mod.rs` lines 59-83)

The source walks each bucket with `for i in 0..routes.len()`, splits the
bucket at `i` into `left` (indices below `i`) and `right` (indices from
`i` on), and compares every `left` element against every `right` element
in order.  When a pair collides, both slots are overwritten with
`Route::new(Method::Get, "/", dummy)` placeholders and the pair of old
values is appended to the collision list.  The comparisons are embedded as
a fold over the list of index pairs in the order the nested loops visit
them, acting on the (mutating) bucket plus the accumulated pairs. -/

/-- The index pairs `(a, b)` compared by the collision loop of one bucket
of length `n`, in visiting order: for each `i`, every `a < i` against
every `b` with `i ≤ b < n`. -/
def checkPairs (n : Nat) : List (Nat × Nat) :=
  (List.range n).flatMap (fun i =>
    (List.range i).flatMap (fun a =>
      (List.range' i (n - i)).map (fun b => (a, b))))

/-- One comparison step of the collision loop: look up both slots, and on
a collision overwrite them with the placeholder and record the pair. -/
def collideStep (s : List Route × List (Route × Route)) (p : Nat × Nat) :
    List Route × List (Route × Route) :=
  if (s.1.getD p.1 dummyRoute).collides_with (s.1.getD p.2 dummyRoute) then
    (((s.1.set p.1 dummyRoute).set p.2 dummyRoute),
      s.2 ++ [(s.1.getD p.1 dummyRoute, s.1.getD p.2 dummyRoute)])
  else s

/-- The collision scan of one bucket: the final bucket contents and the
collision pairs it reported. -/
def bucketCollisions (routes : List Route) : List Route × List (Route × Route) :=
  (checkPairs routes.length).foldl collideStep (routes, [])

/-- `Router::collisions`: scan every bucket, accumulate all reported
pairs, and return the mutated router together with `Ok(())` or
`Err(pairs)`. -/
def Router.collisions (r : Router) : Router × Except (List (Route × Route)) Unit :=
  (⟨r.routes.map (fun mb => (mb.1, (bucketCollisions mb.2).1))⟩,
    if (r.routes.flatMap (fun mb => (bucketCollisions mb.2).2)).isEmpty then .ok ()
    else .error (r.routes.flatMap (fun mb => (bucketCollisions mb.2).2)))

/-! ### Lemmas about the collision scan -/

lemma collideStep_true {l : List Route} {acc : List (Route × Route)} {p : Nat × Nat}
    (h : (l.getD p.1 dummyRoute).collides_with (l.getD p.2 dummyRoute) = true) :
    collideStep (l, acc) p =
      ((l.set p.1 dummyRoute).set p.2 dummyRoute,
        acc ++ [(l.getD p.1 dummyRoute, l.getD p.2 dummyRoute)]) := by
  unfold collideStep
  rw [if_pos h]

lemma collideStep_false {l : List Route} {acc : List (Route × Route)} {p : Nat × Nat}
    (h : (l.getD p.1 dummyRoute).collides_with (l.getD p.2 dummyRoute) = false) :
    collideStep (l, acc) p = (l, acc) := by
  unfold collideStep
  rw [if_neg (by rw [h]; exact Bool.false_ne_true)]

lemma foldl_collideStep_acc_append (ps : List (Nat × Nat)) :
    ∀ l acc, ∃ t, (ps.foldl collideStep (l, acc)).2 = acc ++ t := by
  induction ps with
  | nil => exact fun l acc => ⟨[], by simp⟩
  | cons p ps ih =>
    intro l acc
    simp only [List.foldl_cons]
    cases h : (l.getD p.1 dummyRoute).collides_with (l.getD p.2 dummyRoute) with
    | false =>
      rw [collideStep_false h]
      exact ih l acc
    | true =>
      rw [collideStep_true h]
      obtain ⟨t, ht⟩ := ih ((l.set p.1 dummyRoute).set p.2 dummyRoute)
        (acc ++ [(l.getD p.1 dummyRoute, l.getD p.2 dummyRoute)])
      refine ⟨(l.getD p.1 dummyRoute, l.getD p.2 dummyRoute) :: t, ?_⟩
      rw [ht, List.append_assoc, List.singleton_append]

lemma foldl_collideStep_clean (ps : List (Nat × Nat)) :
    ∀ l acc, (ps.foldl collideStep (l, acc)).2 = [] →
      acc = [] ∧ ps.foldl collideStep (l, acc) = (l, []) ∧
      ∀ p ∈ ps, (l.getD p.1 dummyRoute).collides_with (l.getD p.2 dummyRoute) = false := by
  induction ps with
  | nil =>
    intro l acc h
    simp only [List.foldl_nil] at h ⊢
    exact ⟨h, by rw [h], by simp⟩
  | cons p ps ih =>
    intro l acc h
    simp only [List.foldl_cons] at h ⊢
    cases hc : (l.getD p.1 dummyRoute).collides_with (l.getD p.2 dummyRoute) with
    | true =>
      exfalso
      rw [collideStep_true hc] at h
      obtain ⟨t, ht⟩ := foldl_collideStep_acc_append ps
        ((l.set p.1 dummyRoute).set p.2 dummyRoute)
        (acc ++ [(l.getD p.1 dummyRoute, l.getD p.2 dummyRoute)])
      rw [ht] at h
      simp at h
    | false =>
      rw [collideStep_false hc] at h ⊢
      obtain ⟨h1, h2, h3⟩ := ih l acc h
      refine ⟨h1, h2, ?_⟩
      intro q hq
      rcases List.mem_cons.mp hq with hq | hq
      · rw [hq]; exact hc
      · exact h3 q hq

lemma foldl_collideStep_noop (ps : List (Nat × Nat)) :
    ∀ l acc,
      (∀ p ∈ ps, (l.getD p.1 dummyRoute).collides_with (l.getD p.2 dummyRoute) = false) →
      ps.foldl collideStep (l, acc) = (l, acc) := by
  induction ps with
  | nil => intro l acc _; rfl
  | cons p ps ih =>
    intro l acc h
    simp only [List.foldl_cons]
    rw [collideStep_false (h p (List.mem_cons_self p ps))]
    exact ih l acc (fun q hq => h q (List.mem_cons_of_mem p hq))

lemma foldl_collideStep_mem_collides (ps : List (Nat × Nat)) :
    ∀ l acc x, x ∈ (ps.foldl collideStep (l, acc)).2 →
      x ∈ acc ∨ x.1.collides_with x.2 = true := by
  induction ps with
  | nil =>
    intro l acc x hx
    simp only [List.foldl_nil] at hx
    exact Or.inl hx
  | cons p ps ih =>
    intro l acc x hx
    simp only [List.foldl_cons] at hx
    cases hc : (l.getD p.1 dummyRoute).collides_with (l.getD p.2 dummyRoute) with
    | false =>
      rw [collideStep_false hc] at hx
      exact ih l acc x hx
    | true =>
      rw [collideStep_true hc] at hx
      rcases ih _ _ x hx with h | h
      · rcases List.mem_append.mp h with h | h
        · exact Or.inl h
        · simp only [List.mem_singleton] at h
          rw [h]
          exact Or.inr hc
      · exact Or.inr h

lemma mem_checkPairs {n i j : Nat} (hij : i < j) (hj : j < n) : (i, j) ∈ checkPairs n := by
  unfold checkPairs
  rw [List.mem_flatMap]
  refine ⟨i + 1, by rw [List.mem_range]; omega, ?_⟩
  rw [List.mem_flatMap]
  refine ⟨i, by rw [List.mem_range]; omega, ?_⟩
  rw [List.mem_map]
  exact ⟨j, by rw [List.mem_range'_1]; omega, rfl⟩

lemma checkPairs_bounds {n : Nat} {p : Nat × Nat} (hp : p ∈ checkPairs n) :
    p.1 < p.2 ∧ p.2 < n := by
  unfold checkPairs at hp
  rw [List.mem_flatMap] at hp
  obtain ⟨i, hi, hp⟩ := hp
  rw [List.mem_flatMap] at hp
  obtain ⟨a, ha, hp⟩ := hp
  rw [List.mem_map] at hp
  obtain ⟨b, hb, hba⟩ := hp
  rw [List.mem_range] at hi ha
  rw [List.mem_range'_1] at hb
  rw [← hba]
  exact ⟨by omega, by omega⟩

lemma bucketCollisions_clean_iff (routes : List Route) :
    (bucketCollisions routes).2 = [] ↔
      ∀ i j, i < j → j < routes.length →
        (routes.getD i dummyRoute).collides_with (routes.getD j dummyRoute) = false := by
  constructor
  · intro h i j hij hj
    obtain ⟨-, -, hall⟩ := foldl_collideStep_clean _ _ _ h
    exact hall (i, j) (mem_checkPairs hij hj)
  · intro h
    unfold bucketCollisions
    rw [foldl_collideStep_noop]
    intro p hp
    obtain ⟨h1, h2⟩ := checkPairs_bounds hp
    exact h p.1 p.2 h1 h2

lemma bucketCollisions_fst_of_clean (routes : List Route)
    (h : (bucketCollisions routes).2 = []) : (bucketCollisions routes).1 = routes := by
  obtain ⟨-, h2, -⟩ := foldl_collideStep_clean _ _ _ h
  unfold bucketCollisions
  rw [h2]

/-! ### Example routes and routers used by witnesses and counterexamples -/

def exR1 : Route :=
  { method := .get, rank := 0, path := [.stat "hello"], query := [],
    format := none, handler := 1 }

def exR2 : Route := { exR1 with handler := 2 }

def exR3 : Route := { exR1 with handler := 3 }

def exRWorld : Route :=
  { method := .get, rank := 0, path := [.stat "world"], query := [],
    format := none, handler := 4 }

def exRouterAB : Router := ⟨[(.get, [exR1, exR2])]⟩

def exRouterABC : Router := ⟨[(.get, [exR1, exR2, exR3])]⟩

def exRouterOk : Router := ⟨[(.get, [exR1, exRWorld])]⟩

/-- C1 (amended): `Router::collisions` returns `Ok` exactly when no two
registered descriptors at positions `i < j` of the same method bucket
collide — and since `Route::collides_with` requires equal ranks, "collide"
here is exactly "share the same rank and fully collide", so no pair with
distinct ranks is ever involved.  Moreover, every pair the check reports
consists of two routes of equal rank that fully collide at the moment
they are compared. -/
theorem router_collisions_ok_iff_and_reported (r : Router) :
    ((r.collisions).2 = .ok () ↔
      ∀ mb ∈ r.routes, ∀ i j, i < j → j < mb.2.length →
        (mb.2.getD i dummyRoute).collides_with (mb.2.getD j dummyRoute) = false)
    ∧ (∀ pairs, (r.collisions).2 = .error pairs →
        ∀ x ∈ pairs, x.1.rank = x.2.rank ∧ x.1.collides_with x.2 = true) := by
  constructor
  · show (if (r.routes.flatMap (fun mb => (bucketCollisions mb.2).2)).isEmpty
        then (Except.ok () : Except (List (Route × Route)) Unit)
        else .error (r.routes.flatMap (fun mb => (bucketCollisions mb.2).2))) = .ok () ↔ _
    by_cases hp : (r.routes.flatMap (fun mb => (bucketCollisions mb.2).2)).isEmpty = true
    · rw [if_pos hp]
      rw [List.isEmpty_iff, List.flatMap_eq_nil_iff] at hp
      refine iff_of_true rfl ?_
      intro mb hmb i j hij hj
      exact (bucketCollisions_clean_iff mb.2).mp (hp mb hmb) i j hij hj
    · rw [if_neg hp]
      refine iff_of_false (fun h => Except.noConfusion h) ?_
      intro hall
      apply hp
      rw [List.isEmpty_iff, List.flatMap_eq_nil_iff]
      intro mb hmb
      exact (bucketCollisions_clean_iff mb.2).mpr (hall mb hmb)
  · intro pairs hp x hx
    have hp' : (if (r.routes.flatMap (fun mb => (bucketCollisions mb.2).2)).isEmpty
        then (Except.ok () : Except (List (Route × Route)) Unit)
        else .error (r.routes.flatMap (fun mb => (bucketCollisions mb.2).2)))
        = .error pairs := hp
    by_cases hc : (r.routes.flatMap (fun mb => (bucketCollisions mb.2).2)).isEmpty = true
    · rw [if_pos hc] at hp'
      exact absurd hp' (fun h => Except.noConfusion h)
    · rw [if_neg hc] at hp'
      injection hp' with hpq
      rw [← hpq] at hx
      rw [List.mem_flatMap] at hx
      obtain ⟨mb, hmb, hx⟩ := hx
      unfold bucketCollisions at hx
      rcases foldl_collideStep_mem_collides (checkPairs mb.2.length) mb.2 [] x hx with h | h
      · exact absurd h (List.not_mem_nil x)
      · refine ⟨?_, h⟩
        unfold Route.collides_with at h
        simp only [Bool.and_eq_true, beq_iff_eq] at h
        exact h.1.1.1.2

/-- Witness for C1's theorem: a concrete router whose two identical
rank-0 routes are reported, and the reported pair indeed has equal ranks
and fully collides. -/
theorem router_collisions_ok_iff_and_reported_witness :
    (exRouterAB.collisions).2 = .error [(exR1, exR2)]
    ∧ (exR1.rank = exR2.rank ∧ exR1.collides_with exR2 = true) :=
  ⟨by rfl,
    (router_collisions_ok_iff_and_reported exRouterAB).2 [(exR1, exR2)] (by rfl)
      (exR1, exR2) (by decide)⟩

/-- Counterexample to C1 as stated: with three identical rank-0 routes,
the pair `(exR1, exR3)` shares a rank and fully collides, yet the check
reports only `(exR1, exR2)` — because after the first report both slots
hold placeholder routes, the remaining comparisons miss `(exR1, exR3)`.
So "reports a pair (A, B) if and only if A and B share the same rank and
fully collide" is false. -/
theorem router_collisions_reported_counterexample :
    (exRouterABC.collisions).2 = .error [(exR1, exR2)]
    ∧ exR1.rank = exR3.rank ∧ exR1.collides_with exR3 = true
    ∧ ¬ ((exR1, exR3) ∈ [(exR1, exR2)]) := by
  refine ⟨by rfl, by decide, by decide, by decide⟩

/-- C9 (amended): when the collision check returns `Ok`, the router's
buckets are exactly as before the call. -/
theorem router_collisions_ok_frame (r : Router)
    (h : (r.collisions).2 = .ok ()) : (r.collisions).1 = r := by
  have hclean : ∀ mb ∈ r.routes, (bucketCollisions mb.2).2 = [] := by
    have h' : (if (r.routes.flatMap (fun mb => (bucketCollisions mb.2).2)).isEmpty
        then (Except.ok () : Except (List (Route × Route)) Unit)
        else .error (r.routes.flatMap (fun mb => (bucketCollisions mb.2).2)))
        = .ok () := h
    by_cases hc : (r.routes.flatMap (fun mb => (bucketCollisions mb.2).2)).isEmpty = true
    · rw [List.isEmpty_iff, List.flatMap_eq_nil_iff] at hc
      exact hc
    · rw [if_neg hc] at h'
      exact absurd h' (fun hcon => Except.noConfusion hcon)
  show Router.mk (r.routes.map (fun mb => (mb.1, (bucketCollisions mb.2).1))) = r
  have : r.routes.map (fun mb => (mb.1, (bucketCollisions mb.2).1)) = r.routes := by
    have hcongr : ∀ mb ∈ r.routes, (mb.1, (bucketCollisions mb.2).1) = id mb := by
      intro mb hmb
      rw [bucketCollisions_fst_of_clean mb.2 (hclean mb hmb)]
      rfl
    rw [List.map_congr_left hcongr, List.map_id]
  rw [this]

/-- Witness for C9's theorem: a collision-free router is returned intact
by the collision check. -/
theorem router_collisions_ok_frame_witness :
    (exRouterOk.collisions).2 = .ok () ∧ (exRouterOk.collisions).1 = exRouterOk :=
  ⟨by rfl, router_collisions_ok_frame exRouterOk (by rfl)⟩

/-- Counterexample to C9 as stated: when the check reports a collision,
the colliding routes have been replaced by placeholders, so the bucket is
not "exactly the same descriptors in the same order" after the call. -/
theorem router_collisions_frame_counterexample :
    (exRouterAB.collisions).1 ≠ exRouterAB
    ∧ (exRouterAB.collisions).1.bucket .get = [dummyRoute, dummyRoute] := by
  refine ⟨by decide, by decide⟩

/-! ### Lemmas about `Router::add` and bucket order -/

lemma binarySearchLoop_spec (ranks : List Int) (key : Int)
    (hmono : ∀ i j, i ≤ j → j < ranks.length → ranks.getD i 0 ≤ ranks.getD j 0) :
    ∀ fuel left right, right - left ≤ fuel → left ≤ right → right ≤ ranks.length →
      (∀ j, j < left → ranks.getD j 0 < key) →
      (∀ j, right ≤ j → j < ranks.length → key < ranks.getD j 0) →
      left ≤ binarySearchLoop ranks key fuel left right
      ∧ binarySearchLoop ranks key fuel left right ≤ right
      ∧ (∀ j, j < binarySearchLoop ranks key fuel left right → ranks.getD j 0 ≤ key)
      ∧ (∀ j, binarySearchLoop ranks key fuel left right ≤ j → j < ranks.length →
          key ≤ ranks.getD j 0) := by
  intro fuel
  induction fuel with
  | zero =>
    intro left right hf hlr hrl h1 h2
    simp only [binarySearchLoop]
    refine ⟨Nat.le_refl _, hlr, fun j hj => Int.le_of_lt (h1 j hj),
      fun j hj hjl => Int.le_of_lt (h2 j (by omega) hjl)⟩
  | succ fuel ih =>
    intro left right hf hlr hrl h1 h2
    simp only [binarySearchLoop]
    by_cases hc : left < right
    · rw [if_pos hc]
      have hmlt : left + (right - left) / 2 < right := by omega
      have hmge : left ≤ left + (right - left) / 2 := by omega
      by_cases hlt : ranks.getD (left + (right - left) / 2) 0 < key
      · rw [if_pos hlt]
        refine (ih (left + (right - left) / 2 + 1) right (by omega) (by omega) hrl
          ?_ h2).imp (by omega) (fun h => h)
        intro j hj
        exact Int.lt_of_le_of_lt
          (hmono j (left + (right - left) / 2) (by omega) (by omega)) hlt
      · rw [if_neg hlt]
        by_cases hgt : key < ranks.getD (left + (right - left) / 2) 0
        · rw [if_pos hgt]
          refine (ih left (left + (right - left) / 2) (by omega) (by omega)
            (by omega) h1 ?_).imp (fun h => h) (fun h => ⟨by omega, h.2⟩)
          intro j hj hjl
          exact Int.lt_of_lt_of_le hgt
            (hmono (left + (right - left) / 2) j hj hjl)
        · rw [if_neg hgt]
          have hkey : ranks.getD (left + (right - left) / 2) 0 = key := by omega
          refine ⟨hmge, by omega, ?_, ?_⟩
          · intro j hj
            calc ranks.getD j 0
                ≤ ranks.getD (left + (right - left) / 2) 0 :=
                  hmono j (left + (right - left) / 2) (by omega) (by omega)
              _ = key := hkey
          · intro j hj hjl
            calc key = ranks.getD (left + (right - left) / 2) 0 := hkey.symm
              _ ≤ ranks.getD j 0 := hmono (left + (right - left) / 2) j hj hjl
    · rw [if_neg hc]
      refine ⟨Nat.le_refl _, hlr, fun j hj => Int.le_of_lt (h1 j hj),
        fun j hj hjl => Int.le_of_lt (h2 j (by omega) hjl)⟩

/-- The rank comparison used for bucket order. -/
def rankLE (a b : Route) : Prop := a.rank ≤ b.rank

lemma addIdx_spec (entries : List Route) (key : Int)
    (hs : entries.Pairwise rankLE) :
    addIdx entries key ≤ entries.length
    ∧ (∀ j, j < addIdx entries key → j < entries.length →
        (entries.getD j dummyRoute).rank ≤ key)
    ∧ (∀ j, addIdx entries key ≤ j → j < entries.length →
        key ≤ (entries.getD j dummyRoute).rank) := by
  have hlen : (entries.map (fun r => r.rank)).length = entries.length :=
    List.length_map entries _
  have hgetD : ∀ j, j < entries.length →
      (entries.map (fun r => r.rank)).getD j 0 = (entries.getD j dummyRoute).rank := by
    intro j hj
    rw [List.getD_eq_getElem _ _ (by omega), List.getD_eq_getElem _ _ hj,
      List.getElem_map]
  have hmono : ∀ i j, i ≤ j → j < (entries.map (fun r => r.rank)).length →
      (entries.map (fun r => r.rank)).getD i 0 ≤ (entries.map (fun r => r.rank)).getD j 0 := by
    intro i j hij hj
    rcases Nat.eq_or_lt_of_le hij with rfl | hlt
    · exact le_refl _
    · rw [hgetD i (by omega), hgetD j (by omega)]
      have := List.pairwise_iff_getElem.mp hs i j (by omega) (by omega) hlt
      rw [List.getD_eq_getElem _ _ (by omega), List.getD_eq_getElem _ _ (by omega)]
      exact this
  obtain ⟨-, hle, h1, h2⟩ := binarySearchLoop_spec (entries.map (fun r => r.rank)) key
    hmono entries.length 0 entries.length (by omega) (by omega) (by omega)
    (by omega) (fun j hj hjl => by omega)
  refine ⟨hle, ?_, ?_⟩
  · intro j hj hjl
    have := h1 j hj
    rw [hgetD j hjl] at this
    exact this
  · intro j hj hjl
    have := h2 j hj (by omega)
    rw [hgetD j hjl] at this
    exact this

lemma insertAt_pairwise (l : List Route) (i : Nat) (a : Route)
    (hl : l.Pairwise rankLE)
    (h1 : ∀ j, j < i → j < l.length → (l.getD j dummyRoute).rank ≤ a.rank)
    (h2 : ∀ j, i ≤ j → j < l.length → a.rank ≤ (l.getD j dummyRoute).rank) :
    (insertAt l i a).Pairwise rankLE := by
  unfold insertAt
  rw [List.pairwise_append]
  refine ⟨hl.sublist (List.take_sublist i l), ?_, ?_⟩
  · rw [List.pairwise_cons]
    constructor
    · intro b hb
      rw [List.mem_iff_getElem] at hb
      obtain ⟨k, hk, hkb⟩ := hb
      have hlen : (l.drop i).length = l.length - i := List.length_drop i l
      have hik : i + k < l.length := by omega
      have hkd : (l.drop i)[k] = l[i + k] := List.getElem_drop l
      have : a.rank ≤ (l.getD (i + k) dummyRoute).rank :=
        h2 (i + k) (by omega) hik
      rw [List.getD_eq_getElem _ _ hik] at this
      rw [← hkb, hkd]
      exact this
    · exact hl.sublist (List.drop_sublist i l)
  · intro x hx y hy
    rw [List.mem_iff_getElem] at hx
    obtain ⟨k, hk, hkx⟩ := hx
    have hklen : (l.take i).length = min i l.length := List.length_take i l
    have hkt : (l.take i)[k] = l[k] := List.getElem_take l
    have hxr : x.rank ≤ a.rank := by
      have := h1 k (by omega) (by omega)
      rw [List.getD_eq_getElem _ _ (by omega)] at this
      rw [← hkx, hkt]
      exact this
    rcases List.mem_cons.mp hy with rfl | hy
    · exact hxr
    · rw [List.mem_iff_getElem] at hy
      obtain ⟨k2, hk2, hk2y⟩ := hy
      have hlen2 : (l.drop i).length = l.length - i := List.length_drop i l
      have hik2 : i + k2 < l.length := by omega
      have hk2d : (l.drop i)[k2] = l[i + k2] := List.getElem_drop l
      have hyr : a.rank ≤ y.rank := by
        have := h2 (i + k2) (by omega) hik2
        rw [List.getD_eq_getElem _ _ hik2] at this
        rw [← hk2y, hk2d]
        exact this
      exact le_trans hxr hyr

/-- All buckets of a router are sorted by ascending rank. -/
def bucketsSorted (r : Router) : Prop :=
  ∀ mb ∈ r.routes, mb.2.Pairwise rankLE

lemma bucket_sorted_of_bucketsSorted {r : Router} (h : bucketsSorted r) (m : Method) :
    (r.bucket m).Pairwise rankLE := by
  unfold Router.bucket
  cases hf : r.routes.find? (fun p => p.1 == m) with
  | none => exact List.Pairwise.nil
  | some p => exact h p (List.mem_of_find?_eq_some hf)

lemma bucketsSorted_setBucket {r : Router} (h : bucketsSorted r) {m : Method}
    {v : List Route} (hv : v.Pairwise rankLE) : bucketsSorted (r.setBucket m v) := by
  unfold Router.setBucket
  by_cases hc : r.routes.any (fun p => p.1 == m) = true
  · rw [if_pos hc]
    intro mb hmb
    rw [List.mem_map] at hmb
    obtain ⟨p, hp, hpe⟩ := hmb
    by_cases hpm : (p.1 == m) = true
    · rw [if_pos hpm] at hpe
      rw [← hpe]
      exact hv
    · rw [if_neg hpm] at hpe
      rw [← hpe]
      exact h p hp
  · rw [if_neg hc]
    intro mb hmb
    rcases List.mem_append.mp hmb with hmb | hmb
    · exact h mb hmb
    · rw [List.mem_singleton] at hmb
      rw [hmb]
      exact hv

lemma bucketsSorted_add {r : Router} (h : bucketsSorted r) (rt : Route) :
    bucketsSorted (r.add rt) := by
  unfold Router.add
  apply bucketsSorted_setBucket h
  have hs := bucket_sorted_of_bucketsSorted h rt.method
  obtain ⟨hle, h1, h2⟩ := addIdx_spec (r.bucket rt.method) rt.rank hs
  exact insertAt_pairwise _ _ _ hs h1 h2

/-- C2 (amended): after any sequence of `Router::add` calls starting from
the empty router, every method bucket is sorted by ascending rank. -/
theorem router_add_buckets_sorted (rs : List Route) (m : Method) :
    ((rs.foldl Router.add Router.new).bucket m).Pairwise rankLE := by
  apply bucket_sorted_of_bucketsSorted
  have hstep : ∀ (l : List Route) (r : Router), bucketsSorted r →
      bucketsSorted (l.foldl Router.add r) := by
    intro l
    induction l with
    | nil => exact fun r h => h
    | cons rt l ih => exact fun r h => ih _ (bucketsSorted_add h rt)
  apply hstep
  intro mb hmb
  exact absurd hmb (List.not_mem_nil mb)

/-- Counterexample to C2 as stated: two routes of equal rank are stored in
reverse insertion order.  Rust's `binary_search_by_key` returns the index
of the already-present equal-rank route, so `Router::add` inserts the
later route `exR2` before the earlier route `exR1`. -/
theorem router_add_insertion_order_counterexample :
    ((Router.new.add exR1).add exR2).bucket .get = [exR2, exR1]
    ∧ exR1.rank = exR2.rank ∧ exR1 ≠ exR2 := by
  refine ⟨by decide, by decide, by decide⟩

/-! ### Lemmas about `Router::route` -/

lemma routeBucketScan_restrict_mem (req : RRequest) :
    ∀ (bucket acc : List Route) (rt : Route),
      rt ∈ routeBucketScan req true acc bucket →
      rt ∈ acc ∨ rt.matches_by_method req = true := by
  intro bucket
  induction bucket with
  | nil => exact fun acc rt h => Or.inl h
  | cons b bs ih =>
    intro acc rt h
    unfold routeBucketScan at h
    rw [List.foldl_cons] at h
    by_cases hm : b.matches_by_method req = true
    · rw [if_pos hm] at h
      rcases ih (acc ++ [b]) rt h with hmem | hmem
      · rcases List.mem_append.mp hmem with hmem | hmem
        · exact Or.inl hmem
        · rw [List.mem_singleton] at hmem
          rw [hmem]
          exact Or.inr hm
      · exact Or.inr hmem
    · rw [if_neg hm] at h
      simp only [Bool.not_true, Bool.false_and, Bool.false_eq_true, if_false] at h
      exact ih acc rt h

/-- C3 (amended): with `restrict = true`, every route yielded by
`Router::route` has exactly the request's method.  (The `HEAD`-to-`GET`
fall-through happens in the dispatcher, not in the router; and with
`restrict = false` the router also yields URI-matching routes of every
other method, see the counterexample.) -/
theorem router_route_restrict_method (r : Router) (req : RRequest) (rt : Route)
    (h : rt ∈ r.route req true) : rt.method = req.method := by
  have hscan : ∀ (mbs : List (Method × List Route)) (acc : List Route),
      rt ∈ mbs.foldl (fun acc mb => routeBucketScan req true acc mb.2) acc →
      rt ∈ acc ∨ rt.matches_by_method req = true := by
    intro mbs
    induction mbs with
    | nil => exact fun acc h => Or.inl h
    | cons mb mbs ih =>
      intro acc hin
      rw [List.foldl_cons] at hin
      rcases ih _ hin with hmem | hmem
      · exact routeBucketScan_restrict_mem req mb.2 acc rt hmem
      · exact Or.inr hmem
  rcases hscan r.routes [] h with hmem | hmem
  · exact absurd hmem (List.not_mem_nil rt)
  · unfold Route.matches_by_method at hmem
    simp only [Bool.and_eq_true, beq_iff_eq] at hmem
    exact hmem.1.1

/-- A request for `GET /hello`. -/
def exReqHello : RRequest :=
  { method := .get, segments := ["hello"], query := [], contentType := none }

/-- Witness for C3's theorem at a concrete router and request. -/
theorem router_route_restrict_method_witness :
    exR1 ∈ exRouterOk.route exReqHello true ∧ exR1.method = exReqHello.method :=
  ⟨by decide, router_route_restrict_method exRouterOk exReqHello exR1 (by decide)⟩

/-- A `POST /hello` route and a router holding only it. -/
def exRPost : Route :=
  { method := .post, rank := 0, path := [.stat "hello"], query := [],
    format := none, handler := 9 }

def exRouterPost : Router := ⟨[(.post, [exRPost])]⟩

/-- Counterexample to C3 as stated: with `restrict = false` (the mode the
router's own tests exercise, see `test_err_routing`), a `GET /hello`
request yields the `POST /hello` route — a descriptor registered under
another method is yielded, and `GET` is not the `HEAD` exception. -/
theorem router_route_cross_method_counterexample :
    exRPost ∈ exRouterPost.route exReqHello false
    ∧ exRPost.method = .post ∧ exReqHello.method = .get := by
  refine ⟨by decide, by decide, by decide⟩

/-! ## The dispatcher (`src/lib/src/rocket.rs`) -/

/-- A response: status code, headers and an optional body. -/
structure Response where
  status : Nat
  headers : List (String × String)
  body : Option String
deriving DecidableEq, Repr

/-- `Response::strip_body`: drop the body, keep status and headers. -/
def stripBody (r : Response) : Response := { r with body := none }

/-- A request as the 0.2-era dispatcher sees it.  The remote socket
address and the raw header map are not modelled: the only preprocessing
that touches them is the `X-Real-IP` remote-address rewrite
(`rocket.rs` lines 149-159), which updates only the remote address and
affects none of the claims under study. -/
structure DRequest where
  method : Method
  contentType : Option MediaType
deriving DecidableEq, Repr

/-- Body data; `Data::peek` returns the buffered prefix of the body,
which for the (short) bodies considered here is the whole body, modelled
as its character sequence (the bodies of interest are ASCII, so character
positions and byte positions coincide). -/
structure Data where
  body : List Char
deriving DecidableEq, Repr

/-- Modelled from the spec: `ContentType::is_form` — the URL-encoded form
media type. -/
def isFormMT (m : MediaType) : Bool :=
  m.tp == "application" && m.sub == "x-www-form-urlencoded"

/-- Modelled from the spec: the first `key=value` item of a URL-encoded
form body: the text before the first `&` must contain `=`; the key is
what precedes the first `=` and the value what follows it. -/
def firstFormItem (s : List Char) : Option (List Char × List Char) :=
  if (s.takeWhile (fun c => c != '&')).contains '=' then
    some ((s.takeWhile (fun c => c != '&')).takeWhile (fun c => c != '='),
      ((s.takeWhile (fun c => c != '&')).dropWhile (fun c => c != '=')).drop 1)
  else none

/-- Modelled from the spec: parsing a method name (the IETF standard
set); the repository's own test `form_method-issue-45.rs` drives this
with the lowercase form `patch`, so both spellings parse. -/
def parseMethod (s : List Char) : Option Method :=
  if s = "GET".data ∨ s = "get".data then some .get
  else if s = "PUT".data ∨ s = "put".data then some .put
  else if s = "POST".data ∨ s = "post".data then some .post
  else if s = "DELETE".data ∨ s = "delete".data then some .delete
  else if s = "OPTIONS".data ∨ s = "options".data then some .options
  else if s = "HEAD".data ∨ s = "head".data then some .head
  else if s = "TRACE".data ∨ s = "trace".data then some .trace
  else if s = "CONNECT".data ∨ s = "connect".data then some .connect
  else if s = "PATCH".data ∨ s = "patch".data then some .patch
  else none

/-- `Rocket::preprocess_request` (`rocket.rs` lines 146-179), `_method`
rewriting part: for a `POST` whose content type is a form and whose body
holds at least `"_method=get".length` bytes, take the first form item of
the first `min(len, "_method=delete".length)` bytes of the body; if its
key is `_method` and its value parses as a method, replace the request
method.  In every other case the request is returned unchanged. -/
def preprocessRequest (req : DRequest) (data : Data) : DRequest :=
  if (req.contentType.map isFormMT).getD false = true ∧ req.method = .post
      ∧ ("_method=get").length ≤ data.body.length then
    match firstFormItem (data.body.take ("_method=delete").length) with
    | some kv =>
      if kv.1 = "_method".data then
        match parseMethod kv.2 with
        | some m => { req with method := m }
        | none => req
      else req
    | none => req
  else req

/-- A handler outcome (`handler::Outcome`): success with a response,
forward carrying the body data to the next candidate, or failure with a
status code. -/
inductive HOutcome where
  | success (r : Response)
  | forward (d : Data)
  | failure (status : Nat)
deriving DecidableEq, Repr

/-- Modelled from the spec: a catcher: an error handler producing a
response for a request; `Catcher::handle` returns a `Result`, so it may
itself fail (`none`). -/
structure Catcher where
  handle : DRequest → Option Response

/-- `HashMap::get` over a code-keyed catcher table. -/
def lookupCode (l : List (Nat × Catcher)) (code : Nat) : Option Catcher :=
  (l.find? (fun p => p.1 == code)).map (fun p => p.2)

/-- The 0.2-era `Rocket` application as the dispatcher uses it: the
router (its `route` method, whose 0.2 source is absent, is modelled from
the spec as the ordered candidate list per request), the registered
catchers and the process-default catchers, both keyed by status code. -/
structure DRocket where
  routerRoute : DRequest → List (DRequest → Data → HOutcome)
  catchers : List (Nat × Catcher)
  defaultCatchers : List (Nat × Catcher)

/-- The candidate loop of `Rocket::route` (`rocket.rs` lines 239-263):
invoke each matching handler in order; `Success` and `Failure` return
immediately, `Forward` passes the returned data to the next candidate;
an exhausted list forwards. -/
def routeLoop (req : DRequest) : List (DRequest → Data → HOutcome) → Data → HOutcome
  | [], d => .forward d
  | h :: rest, d =>
    match h req d with
    | .success r => .success r
    | .failure s => .failure s
    | .forward d2 => routeLoop req rest d2

/-- `Rocket::route`. -/
def DRocket.routeReq (rk : DRocket) (req : DRequest) (data : Data) : HOutcome :=
  routeLoop req (rk.routerRoute req) data

/-- `Rocket::handle_error` (`rocket.rs` lines 266-283): select the
catcher registered for the status code, or, failing that, the registered
500 catcher (`.expect`: a missing 500 catcher is a panic, modelled as
`none`); if the selected catcher fails, the default 500 catcher responds
(its own absence or failure is again a panic). -/
def DRocket.handleError (rk : DRocket) (status : Nat) (req : DRequest) :
    Option Response :=
  match (match lookupCode rk.catchers status with
         | some c => some c
         | none => lookupCode rk.catchers 500) with
  | none => none
  | some c =>
    match c.handle req with
    | some resp => some resp
    | none =>
      match lookupCode rk.defaultCatchers 500 with
      | none => none
      | some d => d.handle req

lemma preprocess_preserves_get (req : DRequest) (d : Data) (h : req.method = .get) :
    (preprocessRequest req d).method = .get := by
  unfold preprocessRequest
  rw [if_neg]
  · exact h
  · intro hc
    rw [h] at hc
    exact absurd hc.2.1 (fun he => Method.noConfusion he)

/-- `Rocket::dispatch` (`rocket.rs` lines 181-231): preprocess and route;
a success returns the handler's response; a failure is answered through
the catchers; when every candidate forwards, a request whose method is
`HEAD` is retried as `GET` with the body stripped from the result, and
any other request is answered by the 404 catcher.  (The cookie-delta
headers adjoined to successful responses are not modelled: the cookie
jar is outside this embedding.)  `none` models a panic inside the
catcher machinery. -/
def DRocket.dispatch (rk : DRocket) (req : DRequest) (data : Data) : Option Response :=
  match rk.routeReq (preprocessRequest req data) data with
  | .success resp => some resp
  | .failure s => rk.handleError s (preprocessRequest req data)
  | .forward d =>
    if h : (preprocessRequest req data).method = .head then
      (rk.dispatch { preprocessRequest req data with method := .get } d).map stripBody
    else
      rk.handleError 404 (preprocessRequest req data)
termination_by (if req.method = .get then 0 else 1)
decreasing_by
  have hne : req.method ≠ .get := by
    intro hg
    rw [preprocess_preserves_get req data hg] at h
    exact Method.noConfusion h
  simp [hne]

/-! ### Dispatcher theorems -/

/-- C4: when routing forwards (every candidate declined), a request whose
(preprocessed) method is `HEAD` is retried as `GET` with the body
stripped from the result — the `HEAD` response has the GET response's
status and headers with an empty body — and the retried `GET` pipeline
cannot itself retry (its preprocessed method is not `HEAD`, so the retry
happens exactly once); a request with any other method is answered
through the 404 catcher. -/
theorem dispatch_head_fallthrough (rk : DRocket) (req : DRequest) (data : Data)
    (d : Data) (hfwd : rk.routeReq (preprocessRequest req data) data = .forward d) :
    ((preprocessRequest req data).method = .head →
      rk.dispatch req data =
        (rk.dispatch { preprocessRequest req data with method := .get } d).map stripBody
      ∧ (∀ resp, rk.dispatch { preprocessRequest req data with method := .get } d = some resp →
          rk.dispatch req data =
            some { status := resp.status, headers := resp.headers, body := none })
      ∧ (preprocessRequest { preprocessRequest req data with method := .get } d).method ≠ .head)
    ∧ ((preprocessRequest req data).method ≠ .head →
      rk.dispatch req data = rk.handleError 404 (preprocessRequest req data)) := by
  constructor
  · intro hhead
    have hd : rk.dispatch req data =
        (rk.dispatch { preprocessRequest req data with method := .get } d).map stripBody := by
      rw [DRocket.dispatch]
      simp only [hfwd]
      rw [dif_pos hhead]
    refine ⟨hd, ?_, ?_⟩
    · intro resp hresp
      rw [hd, hresp]
      rfl
    · have hget : ({ preprocessRequest req data with method := .get } : DRequest).method = .get :=
        rfl
      intro hcon
      rw [preprocess_preserves_get _ _ hget] at hcon
      exact Method.noConfusion hcon
  · intro hnh
    rw [DRocket.dispatch]
    simp only [hfwd]
    rw [dif_neg hnh]

/-- An example application: no routes, a 404 catcher, a failing 500
catcher, and a default 500 catcher that always answers. -/
def exCatchResp : Response := { status := 404, headers := [], body := some "not found" }

def exDefResp : Response := { status := 500, headers := [], body := some "server error" }

def exCatcher : Catcher := ⟨fun _ => some exCatchResp⟩

def exDefCatcher : Catcher := ⟨fun _ => some exDefResp⟩

def exFailCatcher : Catcher := ⟨fun _ => none⟩

def exRocket : DRocket :=
  { routerRoute := fun _ => [],
    catchers := [(404, exCatcher), (500, exFailCatcher)],
    defaultCatchers := [(500, exDefCatcher)] }

def exHeadReq : DRequest := { method := .head, contentType := none }

def exEmptyData : Data := ⟨[]⟩

/-- Witness for C4's theorem: a `HEAD` request on a routeless
application is re-dispatched as `GET` with the body stripped. -/
theorem dispatch_head_fallthrough_witness :
    exRocket.dispatch exHeadReq exEmptyData =
      (exRocket.dispatch { preprocessRequest exHeadReq exEmptyData with method := .get }
        exEmptyData).map stripBody :=
  ((dispatch_head_fallthrough exRocket exHeadReq exEmptyData exEmptyData (by rfl)).1
    (by rfl)).1

/-- C5 (amended): the request method is substituted exactly when the
method is `POST`, the content type is a form, the body holds at least
`"_method=get".length` bytes, and the first form item of the first
`"_method=delete".length` bytes of the body has key `_method` with a
value parsing as a method; in every other case — in particular for any
non-`POST` request with the same body — the request is unchanged.
(Because only the first 14 bytes are inspected, methods whose form
encoding exceeds `_method=delete` in length, such as `OPTIONS` and
`CONNECT`, are never substituted.) -/
theorem preprocess_method_substitution (req : DRequest) (data : Data) :
    (req.method ≠ .post → preprocessRequest req data = req)
    ∧ ((req.contentType.map isFormMT).getD false = false → preprocessRequest req data = req)
    ∧ (∀ m : Method, ((preprocessRequest req data).method = m ∧ m ≠ req.method) ↔
        ((req.contentType.map isFormMT).getD false = true ∧ req.method = .post
          ∧ ("_method=get").length ≤ data.body.length
          ∧ ∃ kv, firstFormItem (data.body.take ("_method=delete").length) = some kv
              ∧ kv.1 = "_method".data ∧ parseMethod kv.2 = some m ∧ m ≠ req.method)) := by
  refine ⟨?_, ?_, ?_⟩
  · intro hnp
    unfold preprocessRequest
    rw [if_neg (fun hc => hnp hc.2.1)]
  · intro hnf
    unfold preprocessRequest
    rw [if_neg (fun hc => by rw [hnf] at hc; exact Bool.noConfusion hc.1)]
  · intro m
    by_cases hc : (req.contentType.map isFormMT).getD false = true ∧ req.method = .post
        ∧ ("_method=get").length ≤ data.body.length
    · have hpre : preprocessRequest req data =
          (match firstFormItem (data.body.take ("_method=delete").length) with
           | some kv =>
             if kv.1 = "_method".data then
               match parseMethod kv.2 with
               | some m2 => { req with method := m2 }
               | none => req
             else req
           | none => req) := by
        unfold preprocessRequest
        rw [if_pos hc]
      cases hfi : firstFormItem (data.body.take ("_method=delete").length) with
      | none =>
        simp only [hfi] at hpre
        rw [hpre]
        constructor
        · intro hl
          exact absurd hl.1.symm hl.2
        · intro hr
          obtain ⟨-, -, -, kv, hkv, -⟩ := hr
          exact Option.noConfusion hkv
      | some kv =>
        simp only [hfi] at hpre
        by_cases hkey : kv.1 = "_method".data
        · rw [if_pos hkey] at hpre
          cases hpm : parseMethod kv.2 with
          | none =>
            simp only [hpm] at hpre
            rw [hpre]
            constructor
            · intro hl
              exact absurd hl.1.symm hl.2
            · intro hr
              obtain ⟨-, -, -, kv2, hkv2, -, hpm2, -⟩ := hr
              injection hkv2 with hkveq
              rw [hkveq] at hpm
              rw [hpm] at hpm2
              exact Option.noConfusion hpm2
          | some m0 =>
            simp only [hpm] at hpre
            rw [hpre]
            constructor
            · intro hl
              have hm : m0 = m := hl.1
              exact ⟨hc.1, hc.2.1, hc.2.2, kv, rfl, hkey, by rw [hpm, hm], hl.2⟩
            · intro hr
              obtain ⟨-, -, -, kv2, hkv2, -, hpm2, hne⟩ := hr
              injection hkv2 with hkveq
              rw [hkveq] at hpm
              rw [hpm] at hpm2
              injection hpm2 with hmeq
              exact ⟨hmeq, hne⟩
        · rw [if_neg hkey] at hpre
          rw [hpre]
          constructor
          · intro hl
            exact absurd hl.1.symm hl.2
          · intro hr
            obtain ⟨-, -, -, kv2, hkv2, hkey2, -⟩ := hr
            injection hkv2 with hkveq
            rw [hkveq] at hkey
            exact absurd hkey2 hkey
    · have hpre : preprocessRequest req data = req := by
        unfold preprocessRequest
        rw [if_neg hc]
      rw [hpre]
      constructor
      · intro hl
        exact absurd hl.1.symm hl.2
      · intro hr
        exact absurd ⟨hr.1, hr.2.1, hr.2.2.1⟩ hc

/-- A `POST` request with a form content type. -/
def exPostReq : DRequest :=
  { method := .post, contentType := some ⟨"application", "x-www-form-urlencoded"⟩ }

/-- The body the repository's own `form_method-issue-45.rs` test sends. -/
def exPatchData : Data := ⟨"_method=patch&form_data=Form+data".data⟩

/-- Witness for C5's theorem: the repository test's `POST` body
`_method=patch&...` rewrites the method to `PATCH`. -/
theorem preprocess_method_substitution_witness :
    (preprocessRequest exPostReq exPatchData).method = .patch
    ∧ Method.patch ≠ exPostReq.method :=
  ((preprocess_method_substitution exPostReq exPatchData).2.2 .patch).mpr
    ⟨by decide, by decide, by decide, ("_method".data, "patch".data), by decide, by decide,
      by decide, by decide⟩

/-- A `_method=options` form body. -/
def exOptionsData : Data := ⟨"_method=options&x=1".data⟩

/-- Counterexample to C5 as stated: the first form item of this `POST`
form body has key `_method` and value `options`, which parses as an
allowed method — yet the method is not substituted, because the code
inspects only the first `"_method=delete".length = 14` bytes of the
body, where the value reads `option`. -/
theorem preprocess_method_truncation_counterexample :
    (preprocessRequest exPostReq exOptionsData).method = .post
    ∧ firstFormItem exOptionsData.body = some ("_method".data, "options".data)
    ∧ parseMethod "options".data = some .options
    ∧ Method.options ≠ .post
    ∧ exPostReq.method = .post
    ∧ (exPostReq.contentType.map isFormMT).getD false = true
    ∧ ("_method=get").length ≤ exOptionsData.body.length := by
  refine ⟨by decide, by decide, by decide, by decide, by decide, by decide, by decide⟩

/-- C6: whenever dispatch fails with a status, `handle_error` selects the
catcher registered for that status code, falls back to the registered
500 catcher when none is registered for the code, falls back to the
default 500 catcher when the selected catcher itself fails — and, as
long as a 500 catcher is registered and the default 500 catcher answers
(both invariants of the constructed application, whose catcher maps are
prefilled with defaults), every failing request receives some
response. -/
theorem handle_error_selection_total (rk : DRocket) (status : Nat) (req : DRequest)
    (c500 : Catcher) (h500 : lookupCode rk.catchers 500 = some c500)
    (dc : Catcher) (hdc : lookupCode rk.defaultCatchers 500 = some dc)
    (dresp : Response) (hdresp : dc.handle req = some dresp) :
    (∀ c r, lookupCode rk.catchers status = some c → c.handle req = some r →
        rk.handleError status req = some r)
    ∧ (∀ r, lookupCode rk.catchers status = none → c500.handle req = some r →
        rk.handleError status req = some r)
    ∧ (∀ c, lookupCode rk.catchers status = some c → c.handle req = none →
        rk.handleError status req = some dresp)
    ∧ (lookupCode rk.catchers status = none → c500.handle req = none →
        rk.handleError status req = some dresp)
    ∧ ∃ resp, rk.handleError status req = some resp := by
  refine ⟨?_, ?_, ?_, ?_, ?_⟩
  · intro c r hc hr
    unfold DRocket.handleError
    simp only [hc, hr]
  · intro r hn hr
    unfold DRocket.handleError
    simp only [hn, h500, hr]
  · intro c hc hch
    unfold DRocket.handleError
    simp only [hc, hch, hdc, hdresp]
  · intro hn hch
    unfold DRocket.handleError
    simp only [hn, h500, hch, hdc, hdresp]
  · cases hl : lookupCode rk.catchers status with
    | some c =>
      cases hch : c.handle req with
      | some r => exact ⟨r, by unfold DRocket.handleError; simp only [hl, hch]⟩
      | none =>
        exact ⟨dresp, by unfold DRocket.handleError; simp only [hl, hch, hdc, hdresp]⟩
    | none =>
      cases hch : c500.handle req with
      | some r => exact ⟨r, by unfold DRocket.handleError; simp only [hl, h500, hch]⟩
      | none =>
        exact ⟨dresp, by unfold DRocket.handleError; simp only [hl, h500, hch, hdc, hdresp]⟩

/-- Witness for C6's theorem: the registered 404 catcher answers a 404;
for a 500, the registered (failing) 500 catcher is selected and the
default 500 catcher produces the response. -/
theorem handle_error_selection_total_witness :
    exRocket.handleError 404 exHeadReq = some exCatchResp
    ∧ exRocket.handleError 500 exHeadReq = some exDefResp :=
  ⟨(handle_error_selection_total exRocket 404 exHeadReq exFailCatcher (by rfl)
      exDefCatcher (by rfl) exDefResp (by rfl)).1 exCatcher exCatchResp (by rfl) (by rfl),
    (handle_error_selection_total exRocket 500 exHeadReq exFailCatcher (by rfl)
      exDefCatcher (by rfl) exDefResp (by rfl)).2.2.1 exFailCatcher (by rfl) (by rfl)⟩

/-! ## Managed state (`Rocket::manage` / `Rocket::state`) -/

/-- Modelled from the spec: the type-indexed managed-state container (the
external `state` crate's `Container`): a map from type identity to a
single value; `set` refuses to replace an existing entry and `try_get`
reads one.  Type identities and stored values are represented by `Nat`. -/
structure Container where
  entries : List (Nat × Nat)
deriving DecidableEq, Repr

/-- `Container::try_get`. -/
def Container.tryGet (c : Container) (t : Nat) : Option Nat :=
  (c.entries.find? (fun p => p.1 == t)).map (fun p => p.2)

/-- `Container::set`: `false` and the unchanged container when a value of
the type is already present, otherwise `true` and the extended one. -/
def Container.set (c : Container) (t v : Nat) : Bool × Container :=
  match c.tryGet t with
  | some _ => (false, c)
  | none => (true, ⟨(t, v) :: c.entries⟩)

/-- `Rocket::manage` (`src/core/lib/src/rocket.rs` lines 331-340; the
0.2-era `src/lib/src/rocket.rs` lines 521-528 is identical in effect):
insert the value, and if the type is already managed, panic (`none`). -/
def manage (c : Container) (t v : Nat) : Option Container :=
  if (c.set t v).1 then some (c.set t v).2 else none

/-- `Rocket::state` (`src/core/lib/src/rocket.rs` lines 507-510). -/
def state (c : Container) (t : Nat) : Option Nat := c.tryGet t

/-- C7: when no value is managed for type `t`, `manage` succeeds and
`state` then returns the managed value; a second `manage` for the same
type is fatal (a panic, `none`), whatever value it carries — the managed
value is never replaced. -/
theorem manage_once (c : Container) (t v : Nat) (h : c.tryGet t = none) :
    ∃ c2, manage c t v = some c2 ∧ state c2 t = some v
      ∧ ∀ v2, manage c2 t v2 = none := by
  have hset : c.set t v = (true, ⟨(t, v) :: c.entries⟩) := by
    unfold Container.set
    rw [h]
  have hget : Container.tryGet ⟨(t, v) :: c.entries⟩ t = some v := by
    unfold Container.tryGet
    rw [List.find?_cons_of_pos _ (by simp)]
    rfl
  refine ⟨⟨(t, v) :: c.entries⟩, ?_, hget, ?_⟩
  · unfold manage
    rw [hset]
    rfl
  · intro v2
    unfold manage
    have hset2 : Container.set ⟨(t, v) :: c.entries⟩ t v2 =
        (false, ⟨(t, v) :: c.entries⟩) := by
      unfold Container.set
      rw [hget]
    rw [hset2]
    rfl

/-- Witness for C7's theorem at the empty container. -/
theorem manage_once_witness :
    ∃ c2, manage ⟨[]⟩ 7 42 = some c2 ∧ state c2 7 = some 42
      ∧ ∀ v2, manage c2 7 v2 = none :=
  manage_once ⟨[]⟩ 7 42 (by decide)

/-! ## The request-guard protocol (`src/lib/src/request/from_request.rs`) -/

/-- The three-valued outcome `outcome::Outcome<S, E, F>`. -/
inductive Outcome (S E F : Type) where
  | success (s : S)
  | failure (e : E)
  | forward (f : F)
deriving DecidableEq, Repr

/-- `FromRequest for Option<T>` (`from_request.rs` lines 271-280): derive
`T` from the request; a success wraps the value in `Some`, and a failure
or forward becomes `Success(None)`.  A guard's outcome type is
`Outcome<S, (Status, E), ()>` with `Option<T>`'s error type `()`. -/
def fromRequestOption {T E : Type}
    (fr : DRequest → Outcome T (Nat × E) Unit) (req : DRequest) :
    Outcome (Option T) (Nat × Unit) Unit :=
  match fr req with
  | .success v => .success (some v)
  | .failure _ => .success none
  | .forward _ => .success none

/-- C10: the `Option<T>` request guard always succeeds and never fails or
forwards: it yields `Success(Some v)` exactly when `T`'s own derivation
yields `Success v`, and `Success(None)` when `T`'s derivation fails or
forwards. -/
theorem fromRequest_option_infallible {T E : Type}
    (fr : DRequest → Outcome T (Nat × E) Unit) (req : DRequest) :
    (∃ o, fromRequestOption fr req = .success o)
    ∧ (∀ v, fromRequestOption fr req = .success (some v) ↔ fr req = .success v)
    ∧ (∀ e, fr req = .failure e → fromRequestOption fr req = .success none)
    ∧ (∀ u, fr req = .forward u → fromRequestOption fr req = .success none)
    ∧ (∀ e, fromRequestOption fr req ≠ .failure e)
    ∧ (∀ u, fromRequestOption fr req ≠ .forward u) := by
  cases hfr : fr req with
  | success v =>
    refine ⟨⟨some v, by unfold fromRequestOption; rw [hfr]⟩, ?_, ?_, ?_, ?_, ?_⟩
    · intro v2
      unfold fromRequestOption
      rw [hfr]
      constructor
      · intro hv
        injection hv with hv
        injection hv with hv
        rw [hv]
      · intro hv
        injection hv with hv
        rw [hv]
    · intro e he
      exact Outcome.noConfusion he
    · intro u hu
      exact Outcome.noConfusion hu
    · intro e
      unfold fromRequestOption
      rw [hfr]
      exact fun hcon => Outcome.noConfusion hcon
    · intro u
      unfold fromRequestOption
      rw [hfr]
      exact fun hcon => Outcome.noConfusion hcon
  | failure e =>
    refine ⟨⟨none, by unfold fromRequestOption; rw [hfr]⟩, ?_, ?_, ?_, ?_, ?_⟩
    · intro v2
      unfold fromRequestOption
      rw [hfr]
      constructor
      · intro hv
        injection hv with hv
        exact Option.noConfusion hv
      · intro hv
        exact Outcome.noConfusion hv
    · intro e2 _
      unfold fromRequestOption
      rw [hfr]
    · intro u hu
      exact Outcome.noConfusion hu
    · intro e2
      unfold fromRequestOption
      rw [hfr]
      exact fun hcon => Outcome.noConfusion hcon
    · intro u
      unfold fromRequestOption
      rw [hfr]
      exact fun hcon => Outcome.noConfusion hcon
  | forward u =>
    refine ⟨⟨none, by unfold fromRequestOption; rw [hfr]⟩, ?_, ?_, ?_, ?_, ?_⟩
    · intro v2
      unfold fromRequestOption
      rw [hfr]
      constructor
      · intro hv
        injection hv with hv
        exact Option.noConfusion hv
      · intro hv
        exact Outcome.noConfusion hv
    · intro e2 he
      exact Outcome.noConfusion he
    · intro u2 _
      unfold fromRequestOption
      rw [hfr]
    · intro e2
      unfold fromRequestOption
      rw [hfr]
      exact fun hcon => Outcome.noConfusion hcon
    · intro u2
      unfold fromRequestOption
      rw [hfr]
      exact fun hcon => Outcome.noConfusion hcon

/-- A guard that always fails with status 403. -/
def exFailGuard : DRequest → Outcome Nat (Nat × Unit) Unit :=
  fun _ => .failure (403, ())

/-- Witness for C10's theorem: a failing guard still derives
`Success(None)` as an `Option` guard. -/
theorem fromRequest_option_infallible_witness :
    fromRequestOption exFailGuard exHeadReq = .success none :=
  (fromRequest_option_infallible exFailGuard exHeadReq).2.2.1 (403, ()) (by rfl)

/-! ## Range responses (`src/core/lib/src/response/responder.rs`) -/

/-- hyper's `ByteRangeSpec`: one parsed `bytes=` range item, with `u64`
fields. -/
inductive ByteRangeSpec where
  | fromTo (first last : Nat)
  | allFrom (first : Nat)
  | last (len : Nat)
deriving DecidableEq, Repr

/-- hyper's `Range` header value: a list of byte ranges, or a range unit
the server does not understand. -/
inductive RangeHeader where
  | bytes (rs : List ByteRangeSpec)
  | unregistered
deriving DecidableEq, Repr

/-- The observable response built by `RangeResponder::respond_to`:
status, whether `Accept-Ranges: bytes` is set, the
`Content-Range: bytes start-end/instance` triple when set, and the body
as a (start offset, byte count) view of the underlying seekable body —
`none` when the response carries no body (the 416 case). -/
structure RangeResponse where
  status : Nat
  acceptRangesBytes : Bool
  contentRange : Option (Nat × Nat × Nat)
  body : Option (Nat × Nat)
deriving DecidableEq, Repr

/-- Wrapping `u64` increment (the source's `end += 1`). -/
def u64succ (n : Nat) : Nat := (n + 1) % 2 ^ 64

/-- Wrapping `u64` subtraction (the source's `end - 1` and
`end - start`); both arguments are `u64` values, i.e. below `2^64`. -/
def u64sub (a b : Nat) : Nat := (a + 2 ^ 64 - b) % 2 ^ 64

/-- `RangeResponder::respond_to` (`responder.rs` lines 259-337) over a
seekable body of `size` bytes.  `range` is the request's `Range` header
as hyper parses it — `none` when the header is absent, `some (.error ())`
when it is malformed, and `some (.ok h)` when it parses (the parser
itself is hyper library code).  A single `bytes` range is honoured:
`FromTo` makes the end exclusive and clamps it to the body size,
`AllFrom` runs to the end, and `Last` seeks back from the end, the whole
body when the suffix length exceeds it (`checked_sub` with `unwrap_or(0)`
is exactly truncated subtraction); a start beyond the size is 416.
Multi-range, non-`bytes` and absent headers, and non-`GET` methods fall
through to a plain 200 with the whole body and `Accept-Ranges: bytes`. -/
def rangeResponder (method : Method) (range : Option (Except Unit RangeHeader))
    (size : Nat) : RangeResponse :=
  if method = .get then
    match range with
    | some (.ok (.bytes [r])) =>
      let startEnd : Nat × Nat :=
        match r with
        | .fromTo first last =>
          (first, if u64succ last > size then size else u64succ last)
        | .allFrom first => (first, size)
        | .last len => (size - len, size)
      if startEnd.1 > size then
        { status := 416, acceptRangesBytes := true, contentRange := none, body := none }
      else
        { status := 206, acceptRangesBytes := true,
          contentRange := some (startEnd.1, u64sub startEnd.2 1, size),
          body := some (startEnd.1, u64sub startEnd.2 startEnd.1) }
    | some (.ok (.bytes _)) =>
      { status := 200, acceptRangesBytes := true, contentRange := none,
        body := some (0, size) }
    | some (.ok .unregistered) =>
      { status := 200, acceptRangesBytes := true, contentRange := none,
        body := some (0, size) }
    | some (.error _) =>
      { status := 416, acceptRangesBytes := true, contentRange := none, body := none }
    | none =>
      { status := 200, acceptRangesBytes := true, contentRange := none,
        body := some (0, size) }
  else
    { status := 200, acceptRangesBytes := true, contentRange := none,
      body := some (0, size) }

/-- C8: for a `GET` on a seekable body of `size` bytes (a `u64` length,
and a positive one for the suffix clause): a `Range: bytes=a-b` with
`a ≤ b < size` yields `206 Partial Content` with
`Content-Range: bytes a-b/size` and a sized body of exactly `b - a + 1`
bytes; a malformed `Range` yields `416` with `Accept-Ranges: bytes`; and
a suffix range `bytes=-n` with `n > size` clamps to the whole body. -/
theorem range_responder_correct (a b n size : Nat)
    (hab : a ≤ b) (hbL : b < size) (hsize : size < 2 ^ 64)
    (hn : size < n) (hpos : 0 < size) :
    rangeResponder .get (some (.ok (.bytes [.fromTo a b]))) size =
      { status := 206, acceptRangesBytes := true,
        contentRange := some (a, b, size), body := some (a, b - a + 1) }
    ∧ rangeResponder .get (some (.error ())) size =
      { status := 416, acceptRangesBytes := true, contentRange := none, body := none }
    ∧ rangeResponder .get (some (.ok (.bytes [.last n]))) size =
      { status := 206, acceptRangesBytes := true,
        contentRange := some (0, size - 1, size), body := some (0, size) } := by
  have hsucc : u64succ b = b + 1 := by
    unfold u64succ
    omega
  refine ⟨?_, by rfl, ?_⟩
  · unfold rangeResponder
    rw [if_pos rfl]
    simp only [hsucc]
    rw [if_neg (by omega : ¬ b + 1 > size), if_neg (by omega : ¬ a > size)]
    have h1 : u64sub (b + 1) 1 = b := by unfold u64sub; omega
    have h2 : u64sub (b + 1) a = b - a + 1 := by unfold u64sub; omega
    rw [h1, h2]
  · unfold rangeResponder
    rw [if_pos rfl]
    have hzero : size - n = 0 := by omega
    simp only [hzero]
    rw [if_neg (by omega : ¬ (0 : Nat) > size)]
    have h1 : u64sub size 1 = size - 1 := by unfold u64sub; omega
    have h2 : u64sub size 0 = size := by unfold u64sub; omega
    rw [h1, h2]

/-- Witness for C8's theorem at `a = 1`, `b = 2`, `n = 9`, `size = 4`. -/
theorem range_responder_correct_witness :
    rangeResponder .get (some (.ok (.bytes [.fromTo 1 2]))) 4 =
      { status := 206, acceptRangesBytes := true,
        contentRange := some (1, 2, 4), body := some (1, 2) }
    ∧ rangeResponder .get (some (.error ())) 4 =
      { status := 416, acceptRangesBytes := true, contentRange := none, body := none }
    ∧ rangeResponder .get (some (.ok (.bytes [.last 9]))) 4 =
      { status := 206, acceptRangesBytes := true,
        contentRange := some (0, 3, 4), body := some (0, 4) } :=
  range_responder_correct 1 2 9 4 (by decide) (by decide) (by decide) (by decide)
    (by decide)

end Rocket
